import Mathlib

/-!
Verification development for the evo-passport session/account engine.

The definitions below are a shallow embedding of the TypeScript source:
`src/lib/model.ts` (session token codec, `PassportModel.getOrCreateAccount`),
`src/lib/redis-provider.ts` and the MySQL provider (storage backends),
`src/lib/login.ts` (magic-link login handler and the `AutoMailer`
failover dispatcher), and the session-parsing express middleware of
`src/unnamed/part_000`.  JavaScript numbers appearing here are
non-negative integers well below 2^53, so they are modelled as `Nat`
(all arithmetic used by the code is exact in doubles in that range);
random values (`randomBytes`, `randomInt`, generated codes) are explicit
arguments; `async` storage calls are explicit state passing on a
functional key-value state.
-/

/-! ### Session token codec (src/lib/model.ts) -/

/-- MAX_ID = 2^48 - 1, the exclusive bound handed to `randomInt` for user ids. -/
def MAX_ID : Nat := 281474976710655

/-- Number of random prefix bytes of a session id. -/
def SESSION_PREFIX_LENGTH : Nat := 6

/-- Modulus of the rolling checksum (65521). -/
def SESSION_ROTATE_NUMBER : Nat := 65521

/-- One loop iteration of the checksum: `crc = (crc * 2 + b) % SESSION_ROTATE_NUMBER`. -/
def crcStep (crc b : Nat) : Nat := (crc * 2 + b) % SESSION_ROTATE_NUMBER

/-- The checksum loop over the prefix bytes, starting from 0. -/
def crcOfBytes (bytes : List Nat) : Nat := bytes.foldl crcStep 0

/-- Lowercase hex digit for `n < 16`, as produced by `Buffer.toString("hex")`. -/
def hexDigitChar (n : Nat) : Char :=
  if n < 10 then Char.ofNat ('0'.toNat + n) else Char.ofNat ('a'.toNat + (n - 10))

/-- Two-character lowercase hex rendering of one byte. -/
def byteToHexChars (b : Nat) : List Char := [hexDigitChar (b / 16), hexDigitChar (b % 16)]

/-- Hex encoding of a byte list, `Buffer.toString("hex")`. -/
def hexEncode (bytes : List Nat) : String := ⟨bytes.flatMap byteToHexChars⟩

/-- Value of a hex digit character; `none` on a non-hex character.
Node accepts both lowercase and uppercase digits. -/
def hexVal? (c : Char) : Option Nat :=
  if '0' ≤ c ∧ c ≤ '9' then some (c.toNat - '0'.toNat)
  else if 'a' ≤ c ∧ c ≤ 'f' then some (c.toNat - 'a'.toNat + 10)
  else if 'A' ≤ c ∧ c ≤ 'F' then some (c.toNat - 'A'.toNat + 10)
  else none

/-- Hex decoding with Node's `Buffer.from(s, "hex")` semantics: the string is
consumed in pairs of characters; decoding STOPS (truncates, it does not throw)
at the first pair containing a non-hex character, and a trailing lone
character is dropped. -/
def hexDecodeAux : List Char → List Nat
  | c1 :: c2 :: rest =>
    match hexVal? c1, hexVal? c2 with
    | some h, some l => (h * 16 + l) :: hexDecodeAux rest
    | _, _ => []
  | _ => []

/-- Hex decoding of a string, `Buffer.from(s, "hex")`. -/
def hexDecode (s : String) : List Nat := hexDecodeAux s.data

/-- `generateSessionId` from src/lib/model.ts.  The 6 random bytes produced by
`randomBytes(SESSION_PREFIX_LENGTH)` are an explicit argument.  The source
appends the two bytes `crc >> 8` and `crc % 256`; since `0 ≤ crc < 65521 <
2^31`, `crc >> 8 = crc / 256` exactly. -/
def generateSessionId (bytes : List Nat) (userId : Nat) : String :=
  let crc := crcStep (crcOfBytes bytes) userId
  hexEncode (bytes ++ [crc / 256, crc % 256])

/-- `validateSessionId` from src/lib/model.ts.  The try/catch of the source
never fires: `Buffer.from(_, "hex")` truncates instead of throwing, so the
function is total.  `buff[6]`/`buff[7]` are read with default 0; the length
guard ensures both indices are in range. -/
def validateSessionId (sessionId : String) (userId : Nat) : Bool :=
  let buff := hexDecode sessionId
  if buff.length ≠ SESSION_PREFIX_LENGTH + 2 then false
  else
    let crc := crcStep (crcOfBytes (buff.take SESSION_PREFIX_LENGTH)) userId
    (buff.getD SESSION_PREFIX_LENGTH 0 == crc / 256)
      && (buff.getD (SESSION_PREFIX_LENGTH + 1) 0 == crc % 256)

/-! ### Data model and key-value storage backend (src/lib/model.ts, src/lib/redis-provider.ts) -/

/-- UserAccount record of src/lib/model.ts; optional fields are `Option`. -/
structure UserAccount where
  userId : Nat
  username : Option String := none
  displayName : Option String := none
  profilePic : Option String := none
  email : Option String := none
  emailVerified : Option Bool := none
deriving DecidableEq

/-- Session record of src/lib/model.ts: an id and an embedded account snapshot. -/
structure Session where
  sessionId : String
  user : UserAccount
deriving DecidableEq

/-- Opaque OAuth token blob (TokenData of @evolplus/evo-oauth2); its contents
are never inspected by this repository. -/
structure TokenData where
  raw : String := ""
deriving DecidableEq

/-- OAuth2Profile fields read by this repository (sub, email, email_verified,
name, picture).  The code asserts `sub` non-null (`userInfo.sub!`), so `sub`
is a plain string here. -/
structure OAuth2Profile where
  sub : String := ""
  email : Option String := none
  email_verified : Option Bool := none
  name : Option String := none
  picture : Option String := none
deriving DecidableEq

/-- JavaScript truthiness of an optional string: undefined and "" are falsy. -/
def truthyStr : Option String → Bool
  | none => false
  | some s => s ≠ ""

/-- First-match association lookup; models reading one key of a key-value
store (or a JS Map get). -/
def alookup {α β : Type} [DecidableEq α] : List (α × β) → α → Option β
  | [], _ => none
  | (k, v) :: rest, k' => if k = k' then some v else alookup rest k'

/-- Overwriting association insert; models `SET key value` (or a Map put). -/
def aset {α β : Type} [DecidableEq α] (l : List (α × β)) (k : α) (v : β) : List (α × β) :=
  (k, v) :: l.filter (fun p => p.1 ≠ k)

/-- Association delete; models `DEL key` (or a Map delete). -/
def adelete {α β : Type} [DecidableEq α] (l : List (α × β)) (k : α) : List (α × β) :=
  l.filter (fun p => p.1 ≠ k)

/-- Logical state of the key-value (Redis) storage variant.  The four key
families `session:{id}`, `account:{userId}`, `oauth:{provider}:{sub}` and
`token:{provider}:{userId}` of src/lib/redis-provider.ts become four maps;
values are the structures the provider JSON-serializes into those keys. -/
structure RedisState where
  sessions : List (String × Session) := []
  accounts : List (Nat × UserAccount) := []
  oauthMap : List ((String × String) × Nat) := []
  tokens : List ((String × Nat) × (String × Option TokenData)) := []
deriving DecidableEq

/-- `RedisPassportProvider.querySessionData`.  The owner check is guarded by
JS truthiness of the `userId` argument: it is skipped when `userId` is
undefined (`none`) or 0. -/
def RedisState.querySessionData (s : RedisState) (sessionId : String)
    (userId : Option Nat) : Option Session :=
  match alookup s.sessions sessionId with
  | none => none
  | some sess =>
    match userId with
    | some u => if u ≠ 0 ∧ sess.user.userId ≠ u then none else some sess
    | none => some sess

/-- `RedisPassportProvider.saveSessionData` (the TTL argument of `SET … EX` is
not modelled; the boolean result is always true). -/
def RedisState.saveSessionData (s : RedisState) (sess : Session) : RedisState :=
  { s with sessions := aset s.sessions sess.sessionId sess }

/-- `RedisPassportProvider.generateSession`: mint a session id for the user
and persist the session; the 6 random prefix bytes are an explicit argument. -/
def RedisState.generateSession (s : RedisState) (user : UserAccount)
    (bytes : List Nat) : Session × RedisState :=
  let sess : Session := { sessionId := generateSessionId bytes user.userId, user := user }
  (sess, s.saveSessionData sess)

/-- `RedisPassportProvider.getAccountInfo`. -/
def RedisState.getAccountInfo (s : RedisState) (userId : Nat) : Option UserAccount :=
  alookup s.accounts userId

/-- `RedisPassportProvider.queryOAuthMapping`: read the `(provider, sub)`
mapping, then load that account. -/
def RedisState.queryOAuthMapping (s : RedisState) (provider sub : String) :
    Option UserAccount :=
  match alookup s.oauthMap (provider, sub) with
  | none => none
  | some uid => s.getAccountInfo uid

/-- `RedisPassportProvider.createAccount`. -/
def RedisState.createAccount (s : RedisState) (account : UserAccount) : RedisState :=
  { s with accounts := aset s.accounts account.userId account }

/-- `RedisPassportProvider.saveToken`: writes both the `(provider, sub) →
userId` mapping and the `(provider, userId) → {sub, token}` record. -/
def RedisState.saveToken (s : RedisState) (userId : Nat) (provider sub : String)
    (token : Option TokenData) : RedisState :=
  { s with
    oauthMap := aset s.oauthMap (provider, sub) userId
    tokens := aset s.tokens (provider, userId) (sub, token) }

/-- Account construction of `PassportModel.getOrCreateAccount` (the `else`
branch of src/lib/model.ts lines 100-114): the fresh random user id is an
explicit argument; `email_verified` truthiness maps `some true` to true and
everything else to false; `displayName` falls back to `provider-sub`. -/
def buildNewAccount (provider : String) (userInfo : OAuth2Profile) (freshId : Nat) :
    UserAccount :=
  { userId := freshId
    username := none
    displayName :=
      if truthyStr userInfo.name then userInfo.name
      else some (provider ++ "-" ++ userInfo.sub)
    profilePic := if truthyStr userInfo.picture then userInfo.picture else none
    email := if truthyStr userInfo.email then userInfo.email else none
    emailVerified :=
      if truthyStr userInfo.email then some (userInfo.email_verified = some true) else none }

/-- `PassportModel.getOrCreateAccount` over the key-value storage backend.
If the `(provider, sub)` mapping resolves to an account, the token (when
present, and when `sub` is truthy) is re-saved and the account returned
unchanged; otherwise a new account is created and the token saved only when
present — when `token` is absent, `saveToken` (and with it the
`(provider, sub)` mapping write) is skipped. -/
def getOrCreateAccount (s : RedisState) (provider : String) (token : Option TokenData)
    (userInfo : OAuth2Profile) (freshId : Nat) : UserAccount × RedisState :=
  match s.queryOAuthMapping provider userInfo.sub with
  | some acc =>
    if token.isSome ∧ userInfo.sub ≠ "" then
      (acc, s.saveToken acc.userId provider userInfo.sub token)
    else (acc, s)
  | none =>
    let account := buildNewAccount provider userInfo freshId
    let s1 := s.createAccount account
    if token.isSome then (account, s1.saveToken account.userId provider userInfo.sub token)
    else (account, s1)

/-! ### Relational (MySQL) storage backend (queried rows of mysql-provider) -/

/-- Logical state of the relational variant as far as `querySessionData`
reads it: the `sessions` table rows `(id, user_id)` (the `created` column is
not read by the query) and the `accounts` table rows keyed by `id`. -/
structure MySqlState where
  sessions : List (String × Nat) := []
  accounts : List (Nat × UserAccount) := []
deriving DecidableEq

/-- Row construction of `dataToSession`: the joined row carries the session
id and the account columns `id`, `username`, `display_name`, `picture`;
`email`/`email_verified` are not selected into the Session. -/
def dataToSessionRow (sid : String) (acc : UserAccount) : Session :=
  { sessionId := sid
    user := { userId := acc.userId
              username := acc.username
              displayName := acc.displayName
              profilePic := acc.profilePic } }

/-- Result rows of the SQL query
`SELECT s.id AS ssid, a.* FROM sessions s, accounts a
 WHERE s.id=? AND s.user_id=? AND a.id=s.user_id`. -/
def mysqlSessionRows (st : MySqlState) (sessionId : String) (u : Nat) : List Session :=
  (st.sessions.filter fun p => p.1 = sessionId ∧ p.2 = u).flatMap fun p =>
    (st.accounts.filter fun a => a.1 = p.2).map fun a => dataToSessionRow p.1 a.2

/-- `MySqlPassportProvider.querySessionData`.  The guard `if (sessionId)` is
JS truthiness (the empty string is falsy).  When the `userId` argument is
undefined, the driver binds SQL NULL and the predicate `s.user_id = NULL`
holds of no row, so the query returns no rows.  `dataToSession` takes the
first returned row, or undefined when there is none. -/
def mysqlQuerySessionData (st : MySqlState) (sessionId : String)
    (userId : Option Nat) : Option Session :=
  if sessionId = "" then none
  else
    match userId with
    | none => none
    | some u => (mysqlSessionRows st sessionId u).head?

/-! ### Common logical stored state for the two variants -/

/-- A logical stored state: sessions with their owning account snapshot.
Both storage variants are loaded from it in their own layout. -/
def redisOfLogical (L : List (String × UserAccount)) : RedisState :=
  { sessions := L.map fun p => (p.1, { sessionId := p.1, user := p.2 })
    accounts := L.map fun p => (p.2.userId, p.2) }

/-- The same logical stored state laid out relationally: one `sessions` row
and one `accounts` row per entry. -/
def mysqlOfLogical (L : List (String × UserAccount)) : MySqlState :=
  { sessions := L.map fun p => (p.1, p.2.userId)
    accounts := L.map fun p => (p.2.userId, p.2) }

/-! ### Magic-link login flow (src/lib/login.ts) -/

/-- Ephemeral login-code cache entry: the requesting email and ip. -/
structure LoginRequest where
  email : String
  ip : String
deriving DecidableEq

/-- Character class `[^\s@]` of the email regex. -/
def emailChar (c : Char) : Bool := !c.isWhitespace && c ≠ '@'

/-- Split a character list at the first occurrence of `sep`; `none` when
`sep` does not occur. -/
def splitFirst (sep : Char) : List Char → Option (List Char × List Char)
  | [] => none
  | c :: rest =>
    if c = sep then some ([], rest)
    else match splitFirst sep rest with
      | none => none
      | some (x, y) => some (c :: x, y)

/-- Whether the list contains a '.' that is followed by at least one more
character. -/
def dotFollowed : List Char → Bool
  | [] => false
  | ['.'] => false
  | '.' :: _ :: _ => true
  | _ :: rest => dotFollowed rest

/-- `isValidEmailAddress` of src/lib/login.ts: the regex
`^[^\s@]+@[^\s@]+\.[^\s@]+$`.  A string matches exactly when it splits as
`X@R` with `X` nonempty, both parts over `[^\s@]`, and `R` containing a '.'
at some position that is neither first nor last (the part before the first
'@' cannot contain '@'; a second '@' in `R` fails the character class). -/
def isValidEmailAddress (s : String) : Bool :=
  match splitFirst '@' s.data with
  | none => false
  | some (x, r) =>
    !x.isEmpty && x.all emailChar && r.all emailChar &&
      (match r with
       | [] => false
       | _ :: t => dotFollowed t)

/-- Mutable state touched by the login route: the login-code LRU cache and
the passport storage.  The cache is the external `LRUCache` of
@evolplus/evo-utils; its `get`/`put`/`delete` are modelled as association-map
operations (capacity eviction and recency order are not involved in the
claims below). -/
structure LoginState where
  loginCodes : List (String × LoginRequest) := []
  passport : RedisState := {}
deriving DecidableEq

/-- HTTP request as seen by the login handler, after the array-flattening and
`toString` normalization of the `code` and `email` query parameters. -/
structure LoginHttpRequest where
  code : Option String := none
  email : Option String := none
  originHdr : Option String := none
  ip : String := ""
deriving DecidableEq

/-- Environment of one login-handler run: rate-limiter outcomes (`none` when
the corresponding limiter is not configured, otherwise the value `hit`
returns), the generated random code, the fresh random user id, the random
session-id prefix bytes, and the mail-dispatch outcome. -/
structure LoginOracles where
  ipAllowed : Option Bool := none
  emailAllowed : Option Bool := none
  freshCode : String := ""
  freshUserId : Nat := 0
  sessionBytes : List Nat := []
  mailOk : Bool := true
deriving DecidableEq

/-- Responses the login route can send. -/
inductive LoginResponse where
  | forbidden
  | invalidEmail
  | rateLimited
  | loggedIn (session : Session)
  | invalidCode
  | mailed
  | serverError
deriving DecidableEq

/-- Validity of a redemption code against the cache: the code is present and
its stored email and ip both equal the request's. -/
def codeValid (codes : List (String × LoginRequest)) (c email ip : String) : Bool :=
  match alookup codes c with
  | some lr => lr.email == email && lr.ip == ip
  | none => false

/-- Successful redemption step of the login handler (src/lib/login.ts lines
125-132): create/resolve the account with provider "email" and NO token
(`getOrCreateAccount('email', undefined, …)` with `sub = email`,
`email_verified = true`, `name = email`), mint and persist a session, invoke
the completion callback (cookie side effects are outside the model) and
delete the redeemed code from the cache. -/
def redeemStep (o : LoginOracles) (email ip : String) (st : LoginState) (c : String) :
    LoginResponse × LoginState :=
  let profile : OAuth2Profile :=
    { sub := email, email := some email, email_verified := some true, name := some email }
  let ar := getOrCreateAccount st.passport "email" none profile o.freshUserId
  let sr := ar.2.generateSession ar.1 o.sessionBytes
  (LoginResponse.loggedIn sr.1,
    { loginCodes := adelete st.loginCodes c, passport := sr.2 })

/-- The `GET {prefix}login` handler installed by `setupLogin`
(src/lib/login.ts lines 92-162), as a state transformer.  Branches in source
order: origin check (skipped when a code parameter is present), email
syntax check, ip limiter, email limiter; then either the redemption branch
(code present: look up the code, require stored email and ip to match, then
`redeemStep`) or the issuance branch (store `{email, ip}` under a fresh code
and report the mail outcome). -/
def handleLogin (origin : String) (o : LoginOracles) (req : LoginHttpRequest)
    (st : LoginState) : LoginResponse × LoginState :=
  if req.originHdr ≠ some ("https://" ++ origin) ∧ ¬ truthyStr req.code then
    (LoginResponse.forbidden, st)
  else
    let email := req.email.getD ""
    if ¬ (truthyStr req.email ∧ isValidEmailAddress email) then
      (LoginResponse.invalidEmail, st)
    else if o.ipAllowed = some false then (LoginResponse.rateLimited, st)
    else if o.emailAllowed = some false then (LoginResponse.rateLimited, st)
    else if truthyStr req.code then
      let c := req.code.getD ""
      if codeValid st.loginCodes c email req.ip then redeemStep o email req.ip st c
      else (LoginResponse.invalidCode, st)
    else
      let st2 := { st with
        loginCodes := aset st.loginCodes o.freshCode { email := email, ip := req.ip } }
      if o.mailOk then (LoginResponse.mailed, st2) else (LoginResponse.serverError, st2)

/-! ### Failover mail dispatcher AutoMailer (src/lib/login.ts) -/

/-- Mutable state of `AutoMailer`: per-transport failure scores and the
current try-order (a permutation of transport indices).  Scores are JS
numbers multiplied by `Math.pow(2, elapsed/600000)`, modelled as rationals. -/
structure AutoMailer where
  scores : List ℚ
  orders : List Nat
deriving DecidableEq

/-- Fresh `AutoMailer` over `n` transports: all scores 0, identity order. -/
def AutoMailer.init (n : Nat) : AutoMailer :=
  { scores := List.replicate n 0, orders := List.range n }

/-- Score of transport `t` (JS array read `scores[t]`). -/
def scoreAt (scores : List ℚ) (t : Nat) : ℚ := scores.getD t 0

/-- The score update of `reevaluate i`: every transport with index ABOVE the
failing one has its score multiplied by `f = Math.pow(2, (now -
lastEvaluated)/600000)` (a factor ≥ 1, here an explicit argument), then the
failing transport's own score is incremented.  `j` is the current index while
walking the list. -/
def scoreUpd (i : Nat) (f : ℚ) : Nat → List ℚ → List ℚ
  | _, [] => []
  | j, x :: rest =>
    (if j = i then x + 1 else if i < j then x * f else x) :: scoreUpd i f (j + 1) rest

/-- Stable insertion of `t` into a list sorted by strictly descending score:
`t` is placed before the first element of strictly smaller score.  Models one
step of the stable `Array.prototype.sort` with comparator
`(a, b) => scores[b] - scores[a]`. -/
def insertByScore (scores : List ℚ) (t : Nat) : List Nat → List Nat
  | [] => [t]
  | b :: rest =>
    if scoreAt scores b < scoreAt scores t then t :: b :: rest
    else b :: insertByScore scores t rest

/-- Stable sort of the order array by descending score
(`this.orders.sort((a, b) => this.scores[b] - this.scores[a])`). -/
def sortByScoreDesc (scores : List ℚ) (l : List Nat) : List Nat :=
  l.foldr (insertByScore scores) []

/-- `AutoMailer.reevaluate` on transport index `i` with decay factor `f`. -/
def AutoMailer.reevaluate (m : AutoMailer) (i : Nat) (f : ℚ) : AutoMailer :=
  let scores := scoreUpd i f 0 m.scores
  { scores := scores, orders := sortByScoreDesc scores m.orders }

/-- Loop body of `AutoMailer.sendMail`: try the transport at position `i` of
the CURRENT order array (the order mutates during the loop); on failure run
`reevaluate` with the transport's index and continue; `rem` is the number of
remaining iterations (the loop runs `mailers.length` times).  Returns the
final state and whether some transport succeeded. -/
def sendMailAux (success : Nat → Bool) (f : ℚ) : Nat → Nat → AutoMailer → AutoMailer × Bool
  | 0, _, m => (m, false)
  | rem + 1, i, m =>
    let t := m.orders.getD i 0
    if success t then (m, true)
    else sendMailAux success f rem (i + 1) (m.reevaluate t f)

/-- `AutoMailer.sendMail`: try transports in the current order; `success t`
tells whether transport `t` delivers; `f` is the decay factor of this call. -/
def AutoMailer.sendMail (m : AutoMailer) (success : Nat → Bool) (f : ℚ) :
    AutoMailer × Bool :=
  sendMailAux success f m.scores.length 0 m

/-- Outcome function of the C3 scenario: transport 0 always fails, transport
1 always succeeds. -/
def secondOnly : Nat → Bool := fun t => t == 1

/-- State of the two-transport scenario after `k` `sendMail` calls, the call
`j` using decay factor `fs j`. -/
def iterateSendMail (fs : Nat → ℚ) : Nat → AutoMailer
  | 0 => AutoMailer.init 2
  | k + 1 => ((iterateSendMail fs k).sendMail secondOnly (fs k)).1

/-! ### Session-parsing middleware (src/unnamed/part_000 lines 51-87) -/

/-- Cookies of an incoming request (the `epssid` and `epuid` cookies);
`none` models an absent cookie. -/
structure MwRequest where
  cookieSsid : Option String := none
  cookieUid : Option String := none
deriving DecidableEq

/-- Environment of one middleware run: the session-cache lookup result and
the backend query outcome (`none` = rejected promise, `some r` = resolved
with `r`). -/
structure MwEnv where
  cacheHit : Option Session := none
  backendResult : Option (Option Session) := none
deriving DecidableEq

/-- `parseInt` on a cookie value: leading decimal digits, NaN (`none`) when
the value does not start with a digit.  (Sign and whitespace handling of full
JS `parseInt` are irrelevant to the numeric cookie values this repository
writes.) -/
def parseIntJS (s : String) : Option Nat :=
  let ds := s.data.takeWhile Char.isDigit
  if ds.isEmpty then none
  else some (ds.foldl (fun n c => n * 10 + (c.toNat - '0'.toNat)) 0)

/-- Number of times the kafka-variant express middleware
(src/unnamed/part_000 lines 51-87) invokes `next` on one request.  Branches:
cookies absent → the `else` calls `next` once; cache hit → `next` once;
cache miss with truthy parsed user id and a valid session id → the backend
promise's `then` and `catch` each call `next` exactly once (1 for either
outcome); cache miss with falsy user id or invalid session id → the `if`
body is skipped and NO code path calls `next` (this variant has no fallback
after the validation guard). -/
def nextCountKafkaMw (req : MwRequest) (env : MwEnv) : Nat :=
  if truthyStr req.cookieSsid ∧ truthyStr req.cookieUid then
    match env.cacheHit with
    | some _ => 1
    | none =>
      match parseIntJS (req.cookieUid.getD "") with
      | none => 0
      | some u => if u ≠ 0 ∧ validateSessionId (req.cookieSsid.getD "") u then 1 else 0
  else 1

/-! ### Lemmas about the codec -/

theorem hexVal_hexDigitChar : ∀ n, n < 16 → hexVal? (hexDigitChar n) = some n := by decide

theorem hexDecodeAux_pair (b : Nat) (hb : b < 256) (rest : List Char) :
    hexDecodeAux (byteToHexChars b ++ rest) = b :: hexDecodeAux rest := by
  have hdiv : b / 16 < 16 := by omega
  have hmod : b % 16 < 16 := Nat.mod_lt _ (by norm_num)
  simp only [byteToHexChars, List.cons_append, List.nil_append, hexDecodeAux,
    hexVal_hexDigitChar _ hdiv, hexVal_hexDigitChar _ hmod]
  congr 1
  omega

theorem hexDecode_hexEncode (bytes : List Nat) (h : ∀ b ∈ bytes, b < 256) :
    hexDecode (hexEncode bytes) = bytes := by
  induction bytes with
  | nil => rfl
  | cons b rest ih =>
    have hb : b < 256 := h b (List.mem_cons_self ..)
    have hrest : ∀ x ∈ rest, x < 256 := fun x hx => h x (List.mem_cons_of_mem _ hx)
    simp only [hexDecode, hexEncode, List.flatMap_cons] at ih ⊢
    rw [hexDecodeAux_pair b hb]
    exact congrArg (b :: ·) (ih hrest)

theorem crcStep_lt (c u : Nat) : crcStep c u < 65521 :=
  Nat.mod_lt _ (by decide)

theorem crcStep_inj_of_mod_ne (c u1 u2 : Nat)
    (hne : u1 % SESSION_ROTATE_NUMBER ≠ u2 % SESSION_ROTATE_NUMBER) :
    crcStep c u1 ≠ crcStep c u2 := by
  intro h
  apply hne
  have h' : c * 2 + u1 ≡ c * 2 + u2 [MOD SESSION_ROTATE_NUMBER] := h
  exact Nat.ModEq.add_left_cancel' (c * 2) h'

theorem hexDecode_generateSessionId (bytes : List Nat) (u : Nat)
    (hb : ∀ b ∈ bytes, b < 256) :
    hexDecode (generateSessionId bytes u) =
      bytes ++ [crcStep (crcOfBytes bytes) u / 256, crcStep (crcOfBytes bytes) u % 256] := by
  have hcrc := crcStep_lt (crcOfBytes bytes) u
  apply hexDecode_hexEncode
  intro b hbmem
  rcases List.mem_append.mp hbmem with h | h
  · exact hb b h
  · simp only [List.mem_cons, List.not_mem_nil, or_false] at h
    rcases h with h | h <;> omega

theorem validateSessionId_eval (s : String) (u : Nat) (bytes : List Nat) (c1 c2 : Nat)
    (hdec : hexDecode s = bytes ++ [c1, c2]) (hlen : bytes.length = 6) :
    validateSessionId s u =
      ((c1 == crcStep (crcOfBytes bytes) u / 256)
        && (c2 == crcStep (crcOfBytes bytes) u % 256)) := by
  have hlen8 : (bytes ++ [c1, c2]).length = 8 := by simp [hlen]
  have htake : (bytes ++ [c1, c2]).take 6 = bytes := by
    rw [← hlen]
    exact List.take_left _ _
  have hget6 : (bytes ++ [c1, c2]).getD 6 0 = c1 := by
    rw [List.getD_append_right _ _ _ _ (by omega)]
    simp [hlen]
  have hget7 : (bytes ++ [c1, c2]).getD 7 0 = c2 := by
    rw [List.getD_append_right _ _ _ _ (by omega)]
    simp [hlen]
  simp only [validateSessionId, hdec, SESSION_PREFIX_LENGTH]
  rw [if_neg (by simp [hlen8])]
  rw [htake, hget6, hget7]

/-- C8: for every user id in the valid range and every outcome of the 6 random
prefix bytes, a freshly minted session id validates against the same user id:
`validateSessionId (generateSessionId bytes u) u = true`. -/
theorem validate_mint_same_user (bytes : List Nat) (u : Nat)
    (hlen : bytes.length = 6) (hb : ∀ b ∈ bytes, b < 256) (hu : u ≤ MAX_ID) :
    validateSessionId (generateSessionId bytes u) u = true := by
  rw [validateSessionId_eval _ u bytes _ _ (hexDecode_generateSessionId bytes u hb) hlen]
  simp

/-- C8 witness: a concrete mint/verify round trip. -/
theorem validate_mint_same_user_witness :
    validateSessionId (generateSessionId [1, 2, 3, 4, 5, 6] 42) 42 = true :=
  validate_mint_same_user [1, 2, 3, 4, 5, 6] 42 (by decide) (by decide) (by decide)

/-- C1 counterexample: the claim fails as stated.  The user ids 0 and 65521
are distinct and both in the valid range, yet a session id minted for user 0
(with prefix bytes all zero) validates against user 65521, because the
checksum only depends on the user id modulo SESSION_ROTATE_NUMBER = 65521. -/
theorem validate_mint_cross_user_collision :
    (0 : Nat) ≠ 65521 ∧ (65521 : Nat) ≤ MAX_ID ∧
      validateSessionId (generateSessionId [0, 0, 0, 0, 0, 0] 0) 65521 = true := by
  refine ⟨by decide, by decide, ?_⟩
  decide

/-- C1 amended: a session id minted for `u1` never validates against `u2`
whenever `u1` and `u2` differ modulo SESSION_ROTATE_NUMBER = 65521 (the claim
as stated, for all distinct in-range ids, is false: ids congruent modulo 65521
collide). -/
theorem validate_mint_cross_user (bytes : List Nat) (u1 u2 : Nat)
    (hlen : bytes.length = 6) (hb : ∀ b ∈ bytes, b < 256)
    (hne : u1 % SESSION_ROTATE_NUMBER ≠ u2 % SESSION_ROTATE_NUMBER) :
    validateSessionId (generateSessionId bytes u1) u2 = false := by
  rw [validateSessionId_eval _ u2 bytes _ _ (hexDecode_generateSessionId bytes u1 hb) hlen]
  have hcrcne := crcStep_inj_of_mod_ne (crcOfBytes bytes) u1 u2 hne
  have hkey : crcStep (crcOfBytes bytes) u1 / 256 ≠ crcStep (crcOfBytes bytes) u2 / 256 ∨
      crcStep (crcOfBytes bytes) u1 % 256 ≠ crcStep (crcOfBytes bytes) u2 % 256 := by
    by_contra hcon
    push_neg at hcon
    exact hcrcne (by omega)
  rcases hkey with h | h <;> simp [h]

/-- C1 amended witness: concrete distinct user ids differing mod 65521. -/
theorem validate_mint_cross_user_witness :
    validateSessionId (generateSessionId [1, 2, 3, 4, 5, 6] 1) 2 = false :=
  validate_mint_cross_user [1, 2, 3, 4, 5, 6] 1 2 (by decide) (by decide) (by decide)

/-- C9 counterexample: the claim fails as stated.  The token
"0000000000000000zz" is malformed (it contains non-hex characters), yet
`validateSessionId` returns true for user 0: Node's hex decoding truncates at
the first invalid character, so the 8 bytes decoded from the first 16
characters pass the length and checksum tests. -/
theorem validate_malformed_token_accepted :
    (("0000000000000000zz".data.all fun c => (hexVal? c).isSome) = false) ∧
      validateSessionId "0000000000000000zz" 0 = true := by
  refine ⟨by decide, ?_⟩
  decide

/-- C9 amended: `validateSessionId` is total (hex decoding truncates rather
than throwing, so the catch branch is dead code) and returns false whenever
the decoded byte sequence does not have exactly SESSION_PREFIX_LENGTH + 2 = 8
bytes; however a malformed token whose first 16 characters are valid hex
decodes, by truncation, to the same 8 bytes as the corresponding well-formed
token and is then indistinguishable from it. -/
theorem validateSessionId_false_of_bad_length (s : String) (u : Nat)
    (h : (hexDecode s).length ≠ SESSION_PREFIX_LENGTH + 2) :
    validateSessionId s u = false := by
  simp [validateSessionId, h]

/-- C9 amended witness: a short malformed token is rejected. -/
theorem validateSessionId_false_of_bad_length_witness :
    validateSessionId "zz" 0 = false :=
  validateSessionId_false_of_bad_length "zz" 0 (by decide)

/-! ### Lemmas about the association maps -/

theorem alookup_mem {α β : Type} [DecidableEq α] {l : List (α × β)} {k : α} {v : β} :
    alookup l k = some v → (k, v) ∈ l := by
  induction l with
  | nil => intro h; simp [alookup] at h
  | cons p rest ih =>
    obtain ⟨a, b⟩ := p
    intro h
    simp only [alookup] at h
    by_cases hk : a = k
    · rw [if_pos hk] at h
      cases h
      subst hk
      exact List.mem_cons_self ..
    · rw [if_neg hk] at h
      exact List.mem_cons_of_mem _ (ih h)

theorem alookup_adelete {α β : Type} [DecidableEq α] (l : List (α × β)) (k : α) :
    alookup (adelete l k) k = none := by
  induction l with
  | nil => rfl
  | cons p rest ih =>
    obtain ⟨a, b⟩ := p
    by_cases hk : a = k
    · simpa [adelete, hk] using ih
    · simpa [adelete, alookup, hk] using ih

/-! ### C2: getOrCreateAccount is not idempotent when the token is absent -/

/-- C2 (code_bug evidence): starting from empty storage, two sequential
`getOrCreateAccount` calls with the same `(provider, sub)` and an ABSENT
token — exactly the magic-link login call shape,
`getOrCreateAccount('email', undefined, …)` — return two different fresh
user ids and leave two account records in storage: without a token,
`saveToken` is skipped and the `(provider, sub) → userId` mapping is never
written, so the second call finds no mapping and creates a second account. -/
theorem getOrCreateAccount_token_absent_duplicates :
    (getOrCreateAccount {} "email" none
        { sub := "a@b.com", email := some "a@b.com",
          email_verified := some true, name := some "a@b.com" } 1).1.userId = 1 ∧
      (getOrCreateAccount
          (getOrCreateAccount {} "email" none
            { sub := "a@b.com", email := some "a@b.com",
              email_verified := some true, name := some "a@b.com" } 1).2
          "email" none
          { sub := "a@b.com", email := some "a@b.com",
            email_verified := some true, name := some "a@b.com" } 2).1.userId = 2 ∧
      (getOrCreateAccount
          (getOrCreateAccount {} "email" none
            { sub := "a@b.com", email := some "a@b.com",
              email_verified := some true, name := some "a@b.com" } 1).2
          "email" none
          { sub := "a@b.com", email := some "a@b.com",
            email_verified := some true, name := some "a@b.com" } 2).2.accounts.length = 2 := by
  refine ⟨rfl, rfl, ?_⟩
  decide

/-! ### C5: the kafka-variant middleware can drop the continuation -/

/-- C5 (code_bug evidence): a request carrying both session cookies whose
session id fails validation (cookie `epssid = "zz"`, `epuid = "1"`, not in
the session cache) makes the src/unnamed/part_000 middleware invoke `next`
ZERO times — the request stalls instead of proceeding anonymously (the
src/lib/index.ts variant guards this path with its `valid` flag; this
variant dropped that fallback). -/
theorem middleware_zero_next_on_invalid_cookie :
    nextCountKafkaMw { cookieSsid := some "zz", cookieUid := some "1" }
      { cacheHit := none, backendResult := some none } = 0 := by
  decide

/-! ### C10: the key-value variant skips the owner check for userId 0 -/

/-- C10: in the key-value variant, an explicit `userId` argument of 0 is
falsy, so the owner-mismatch guard of `querySessionData` is skipped and the
stored session is returned whatever its owner's id is: the cross-account
rejection applies only to non-zero `userId` arguments. -/
theorem redis_query_zero_skips_owner_check (st : RedisState) (sid : String) (sess : Session)
    (h : alookup st.sessions sid = some sess) :
    st.querySessionData sid (some 0) = some sess := by
  simp [RedisState.querySessionData, h]

/-- C10 witness: a stored session owned by user 5 is returned for the
explicit argument `userId = 0`. -/
theorem redis_query_zero_skips_owner_check_witness :
    RedisState.querySessionData
        { sessions := [("aa", { sessionId := "aa", user := { userId := 5 } })] }
        "aa" (some 0)
      = some { sessionId := "aa", user := { userId := 5 } } :=
  redis_query_zero_skips_owner_check _ "aa" _ (by decide)

theorem redis_query_logical (L : List (String × UserAccount)) (sid : String) (u : Nat)
    (hu : u ≠ 0) :
    RedisState.querySessionData (redisOfLogical L) sid (some u) =
      match alookup L sid with
      | some owner => if owner.userId = u then some ⟨sid, owner⟩ else none
      | none => none := by
  induction L with
  | nil => rfl
  | cons p rest ih =>
    obtain ⟨s0, acc⟩ := p
    by_cases hs : s0 = sid
    · subst hs
      by_cases ha : acc.userId = u
      · simp [RedisState.querySessionData, redisOfLogical, alookup, ha]
      · simp [RedisState.querySessionData, redisOfLogical, alookup, ha, hu]
    · simp only [RedisState.querySessionData, redisOfLogical, List.map_cons, alookup,
        if_neg hs] at ih ⊢
      exact ih

theorem sessionsOf_filter_nil (L : List (String × UserAccount)) (sid : String) (u : Nat)
    (h : sid ∉ L.map Prod.fst) :
    (L.map fun p => (p.1, p.2.userId)).filter (fun p => p.1 = sid ∧ p.2 = u) = [] := by
  induction L with
  | nil => rfl
  | cons p rest ih =>
    simp only [List.map_cons, List.mem_cons, not_or] at h
    simp only [List.map_cons, List.filter_cons]
    rw [if_neg (by simp only [decide_eq_true_eq, not_and]; intro hcon; exact absurd hcon.symm h.1)]
    exact ih h.2

theorem sessionsOf_filter (L : List (String × UserAccount)) (sid : String) (u : Nat)
    (hnd : (L.map Prod.fst).Nodup) :
    (L.map fun p => (p.1, p.2.userId)).filter (fun p => p.1 = sid ∧ p.2 = u) =
      match alookup L sid with
      | some owner => if owner.userId = u then [(sid, u)] else []
      | none => [] := by
  induction L with
  | nil => rfl
  | cons p rest ih =>
    obtain ⟨s0, acc⟩ := p
    simp only [List.map_cons, List.nodup_cons] at hnd
    by_cases hs : s0 = sid
    · subst hs
      have hnil := sessionsOf_filter_nil rest s0 u hnd.1
      by_cases ha : acc.userId = u
      · rw [List.map_cons, List.filter_cons, if_pos (by simp [ha])]
        rw [hnil]
        simp [alookup, ha]
      · rw [List.map_cons, List.filter_cons, if_neg (by simp [ha])]
        rw [hnil]
        simp [alookup, ha]
    · simp only [List.map_cons, List.filter_cons, alookup, if_neg hs]
      rw [if_neg (by simp only [decide_eq_true_eq, not_and]; intro hcon; exact absurd hcon hs)]
      exact ih hnd.2

theorem accountsOf_filter_head (L : List (String × UserAccount)) (u : Nat)
    (owner : UserAccount)
    (howner : owner ∈ L.map Prod.snd) (hid : owner.userId = u)
    (hcons : ∀ p ∈ L, ∀ q ∈ L, p.2.userId = q.2.userId → p.2 = q.2) :
    ((L.map fun p => (p.2.userId, p.2)).filter (fun a => a.1 = u)).head? =
      some (u, owner) := by
  induction L with
  | nil => simp at howner
  | cons p rest ih =>
    obtain ⟨s0, acc⟩ := p
    simp only [List.map_cons, List.mem_cons] at howner
    by_cases ha : acc.userId = u
    · have hacc : acc = owner := by
        rcases howner with h | h
        · exact h.symm
        · obtain ⟨q, hq, hq2⟩ := List.mem_map.mp h
          have heq := hcons (s0, acc) (List.mem_cons_self ..) q (List.mem_cons_of_mem _ hq)
            (by show acc.userId = q.2.userId; rw [ha, hq2, hid])
          rw [show acc = (s0, acc).2 from rfl, heq, hq2]
      simp only [List.map_cons, List.filter_cons]
      rw [if_pos (by simp [ha])]
      simp [ha, hacc, hid]
    · have howner2 : owner ∈ rest.map Prod.snd := by
        rcases howner with h | h
        · exact absurd (h ▸ hid) ha
        · exact h
      simp only [List.map_cons, List.filter_cons]
      rw [if_neg (by simp [ha])]
      exact ih howner2 fun p hp q hq =>
        hcons p (List.mem_cons_of_mem _ hp) q (List.mem_cons_of_mem _ hq)

theorem mysql_query_logical (L : List (String × UserAccount)) (sid : String) (u : Nat)
    (hsid : sid ≠ "")
    (hnd : (L.map Prod.fst).Nodup)
    (hcons : ∀ p ∈ L, ∀ q ∈ L, p.2.userId = q.2.userId → p.2 = q.2) :
    mysqlQuerySessionData (mysqlOfLogical L) sid (some u) =
      match alookup L sid with
      | some owner => if owner.userId = u then some (dataToSessionRow sid owner) else none
      | none => none := by
  have hsf := sessionsOf_filter L sid u hnd
  simp only [mysqlQuerySessionData, mysqlSessionRows, mysqlOfLogical]
  rw [if_neg hsid]
  cases halo : alookup L sid with
  | none =>
    rw [halo] at hsf
    rw [hsf]
    rfl
  | some owner =>
    rw [halo] at hsf
    have hsf2 : (L.map fun p => (p.1, p.2.userId)).filter (fun p => p.1 = sid ∧ p.2 = u) =
        if owner.userId = u then [(sid, u)] else [] := hsf
    have hred : (match some owner with
        | some o => if o.userId = u then some (dataToSessionRow sid o) else none
        | none => none) = if owner.userId = u then some (dataToSessionRow sid owner) else none := rfl
    rw [hred]
    have hmem := alookup_mem halo
    by_cases ha : owner.userId = u
    · rw [hsf2, if_pos ha, if_pos ha]
      simp only [List.flatMap_cons, List.flatMap_nil, List.append_nil]
      rw [List.head?_map,
        accountsOf_filter_head L u owner (List.mem_map.mpr ⟨(sid, owner), hmem, rfl⟩) ha hcons]
      rfl
    · rw [hsf2, if_neg ha, if_neg ha]
      rfl

/-! ### C4: observational equivalence of the two storage variants -/

/-- C4 counterexample: the claim fails as stated.  Over the same logical
stored state (one session "aa" owned by account 5, loaded into each variant's
layout), a `querySessionData` call with the `userId` argument OMITTED returns
absent in the relational variant (the driver binds SQL NULL for the missing
parameter and `s.user_id = NULL` matches no row) but returns the stored
session in the key-value variant (the falsy guard skips the owner check). -/
theorem querySessionData_variants_differ :
    mysqlQuerySessionData (mysqlOfLogical [("aa", { userId := 5 })]) "aa" none = none ∧
      RedisState.querySessionData (redisOfLogical [("aa", { userId := 5 })]) "aa" none
        = some { sessionId := "aa", user := { userId := 5 } } := by
  exact ⟨rfl, by decide⟩

/-- C4 amended: the two variants are observationally equivalent on
`querySessionData` over the same logical stored state — returning the stored
session exactly when the supplied owner matches, absent otherwise — PROVIDED
the `userId` argument is supplied and non-zero (the counterexample rules out
the omitted case, and 0 is falsy in the key-value guard), the session id is
non-empty (the relational guard `if (sessionId)` is truthiness), session ids
are unique, account snapshots are consistent per user id, and the snapshots
carry no email fields (the relational join does not select
`email`/`email_verified` into the returned Session). -/
theorem querySessionData_equiv (L : List (String × UserAccount)) (sid : String) (u : Nat)
    (hu : u ≠ 0) (hsid : sid ≠ "")
    (hnd : (L.map Prod.fst).Nodup)
    (hcons : ∀ p ∈ L, ∀ q ∈ L, p.2.userId = q.2.userId → p.2 = q.2)
    (hmail : ∀ p ∈ L, p.2.email = none ∧ p.2.emailVerified = none) :
    mysqlQuerySessionData (mysqlOfLogical L) sid (some u)
      = RedisState.querySessionData (redisOfLogical L) sid (some u) := by
  rw [mysql_query_logical L sid u hsid hnd hcons, redis_query_logical L sid u hu]
  cases halo : alookup L sid with
  | none => rfl
  | some owner =>
    have hm := hmail (sid, owner) (alookup_mem halo)
    have hrow : dataToSessionRow sid owner = ⟨sid, owner⟩ := by
      obtain ⟨uid, un, dn, pp, em, ev⟩ := owner
      simp only [dataToSessionRow]
      simp only at hm
      rw [hm.1, hm.2]
    show (if owner.userId = u then some (dataToSessionRow sid owner) else none) =
      if owner.userId = u then some ({ sessionId := sid, user := owner } : Session) else none
    rw [hrow]

/-- C4 amended witness: both variants agree on a concrete two-session state,
owner matching. -/
theorem querySessionData_equiv_witness :
    mysqlQuerySessionData (mysqlOfLogical [("aa", { userId := 5 }), ("bb", { userId := 9 })])
        "aa" (some 5)
      = RedisState.querySessionData
          (redisOfLogical [("aa", { userId := 5 }), ("bb", { userId := 9 })]) "aa" (some 5) :=
  querySessionData_equiv [("aa", { userId := 5 }), ("bb", { userId := 9 })] "aa" 5
    (by decide) (by decide) (by decide) (by decide) (by decide)

/-! ### C6 and C7: magic-link redemption -/

/-- C6: a redemption request (code parameter present) mints a session only if
the code is in the login-code cache with stored email and ip both equal to
the request's (`codeValid`); and whenever the request reaches the code check
(valid truthy email, neither limiter rejecting) with any of the three
conditions failing, the response is the "invalid or expired code" rejection
and the state — login-code cache and storage — is completely unchanged (no
account, no session).  In particular a valid code redeemed from a different
IP is rejected. -/
theorem redeem_checks_code_email_ip (origin : String) (o : LoginOracles)
    (req : LoginHttpRequest) (st : LoginState) (c : String)
    (hc : req.code = some c) (hc2 : c ≠ "") :
    (∀ sess, (handleLogin origin o req st).1 = LoginResponse.loggedIn sess →
        codeValid st.loginCodes c (req.email.getD "") req.ip = true) ∧
      ((truthyStr req.email = true ∧ isValidEmailAddress (req.email.getD "") = true ∧
          o.ipAllowed ≠ some false ∧ o.emailAllowed ≠ some false ∧
          codeValid st.loginCodes c (req.email.getD "") req.ip = false) →
        handleLogin origin o req st = (LoginResponse.invalidCode, st)) := by
  have hct : truthyStr (some c) = true := by simpa [truthyStr] using hc2
  simp only [handleLogin, hc, Option.getD_some]
  constructor
  · intro sess h
    split_ifs at h <;> simp_all
  · rintro ⟨he1, he2, he3, he4, he5⟩
    rw [if_neg (by rintro ⟨h, hn⟩; exact hn hct)]
    rw [if_neg (not_not_intro ⟨he1, he2⟩)]
    rw [if_neg he3]
    rw [if_neg he4]
    rw [if_pos hct]
    rw [if_neg (by simp [he5])]

/-- C6 witness: a stored code for ip 1.2.3.4 redeemed from ip 9.9.9.9 yields
the invalid-code response and leaves the state unchanged. -/
theorem redeem_checks_code_email_ip_witness :
    handleLogin "ex.com" { freshUserId := 7, sessionBytes := [1, 2, 3, 4, 5, 6] }
        { code := some "c1", email := some "a@b.com", ip := "9.9.9.9" }
        { loginCodes := [("c1", { email := "a@b.com", ip := "1.2.3.4" })] }
      = (LoginResponse.invalidCode,
          { loginCodes := [("c1", { email := "a@b.com", ip := "1.2.3.4" })] }) :=
  (redeem_checks_code_email_ip "ex.com" _ _ _ "c1" rfl (by decide)).2
    ⟨by decide, by decide, by decide, by decide, by decide⟩

/-- C7: login codes are single-use under sequential execution.  When a
redemption request succeeds, the code is deleted from the login-code cache,
and replaying the very same request (same code, email and ip, limiters
passing) against the resulting state yields the "invalid or expired code"
response and changes nothing. -/
theorem login_code_single_use (origin : String) (o1 o2 : LoginOracles)
    (req : LoginHttpRequest) (st : LoginState) (c : String)
    (hc : req.code = some c) (hc2 : c ≠ "")
    (he1 : truthyStr req.email = true)
    (he2 : isValidEmailAddress (req.email.getD "") = true)
    (hip1 : o1.ipAllowed ≠ some false) (heml1 : o1.emailAllowed ≠ some false)
    (hip2 : o2.ipAllowed ≠ some false) (heml2 : o2.emailAllowed ≠ some false)
    (hcv : codeValid st.loginCodes c (req.email.getD "") req.ip = true) :
    (∃ sess, (handleLogin origin o1 req st).1 = LoginResponse.loggedIn sess) ∧
      alookup ((handleLogin origin o1 req st).2.loginCodes) c = none ∧
      handleLogin origin o2 req ((handleLogin origin o1 req st).2)
        = (LoginResponse.invalidCode, (handleLogin origin o1 req st).2) := by
  have hct : truthyStr (some c) = true := by simpa [truthyStr] using hc2
  have h1 : handleLogin origin o1 req st = redeemStep o1 (req.email.getD "") req.ip st c := by
    simp only [handleLogin, hc, Option.getD_some]
    rw [if_neg (by rintro ⟨h, hn⟩; exact hn hct)]
    rw [if_neg (not_not_intro ⟨he1, he2⟩)]
    rw [if_neg hip1, if_neg heml1, if_pos hct, if_pos hcv]
  rw [h1]
  have hdel : (redeemStep o1 (req.email.getD "") req.ip st c).2.loginCodes
      = adelete st.loginCodes c := rfl
  have hcv2 : codeValid (redeemStep o1 (req.email.getD "") req.ip st c).2.loginCodes c
      (req.email.getD "") req.ip = false := by
    simp [codeValid, hdel, alookup_adelete]
  refine ⟨⟨_, rfl⟩, ?_, ?_⟩
  · rw [hdel]
    exact alookup_adelete _ _
  · simp only [handleLogin, hc, Option.getD_some]
    rw [if_neg (by rintro ⟨h, hn⟩; exact hn hct)]
    rw [if_neg (not_not_intro ⟨he1, he2⟩)]
    rw [if_neg hip2, if_neg heml2, if_pos hct]
    rw [if_neg (by simp [hcv2])]

/-- C7 witness: a concrete successful redemption followed by a replay of the
same request, which is rejected. -/
theorem login_code_single_use_witness :
    (∃ sess,
        (handleLogin "ex.com" { freshUserId := 7, sessionBytes := [1, 2, 3, 4, 5, 6] }
            { code := some "c1", email := some "a@b.com", ip := "1.2.3.4" }
            { loginCodes := [("c1", { email := "a@b.com", ip := "1.2.3.4" })] }).1
          = LoginResponse.loggedIn sess) ∧
      alookup
          ((handleLogin "ex.com" { freshUserId := 7, sessionBytes := [1, 2, 3, 4, 5, 6] }
              { code := some "c1", email := some "a@b.com", ip := "1.2.3.4" }
              { loginCodes := [("c1", { email := "a@b.com", ip := "1.2.3.4" })] }).2.loginCodes)
          "c1" = none ∧
      handleLogin "ex.com" { freshUserId := 7, sessionBytes := [1, 2, 3, 4, 5, 6] }
          { code := some "c1", email := some "a@b.com", ip := "1.2.3.4" }
          ((handleLogin "ex.com" { freshUserId := 7, sessionBytes := [1, 2, 3, 4, 5, 6] }
              { code := some "c1", email := some "a@b.com", ip := "1.2.3.4" }
              { loginCodes := [("c1", { email := "a@b.com", ip := "1.2.3.4" })] }).2)
        = (LoginResponse.invalidCode,
            (handleLogin "ex.com" { freshUserId := 7, sessionBytes := [1, 2, 3, 4, 5, 6] }
                { code := some "c1", email := some "a@b.com", ip := "1.2.3.4" }
                { loginCodes := [("c1", { email := "a@b.com", ip := "1.2.3.4" })] }).2) :=
  login_code_single_use "ex.com" _ _ _ _ "c1" rfl (by decide) (by decide) (by decide)
    (by decide) (by decide) (by decide) (by decide) (by decide)

/-! ### C3: the AutoMailer try-order never demotes the failing transport -/

theorem sendMail_step (q : ℚ) (hq : 0 ≤ q) (f : ℚ) :
    AutoMailer.sendMail ⟨[q, 0], [0, 1]⟩ secondOnly f = (⟨[q + 1, 0], [0, 1]⟩, true) := by
  have h01 : (0 : ℚ) < q + 1 := by positivity
  simp [AutoMailer.sendMail, sendMailAux, AutoMailer.reevaluate, scoreUpd, sortByScoreDesc,
    insertByScore, scoreAt, secondOnly, List.getD, h01]

theorem iterateSendMail_eq (fs : Nat → ℚ) (k : Nat) :
    iterateSendMail fs k = ⟨[(k : ℚ), 0], [0, 1]⟩ := by
  induction k with
  | zero => simp [iterateSendMail, AutoMailer.init, List.replicate, List.range,
      List.range.loop]
  | succ k ih =>
    rw [iterateSendMail, ih, sendMail_step (k : ℚ) (by positivity) (fs k)]
    push_cast
    rfl

/-- C3 (code_bug evidence): in the two-transport scenario (transport 0 always
fails, transport 1 always succeeds) the failing transport's score does rise
by 1 per failure, but `orders.sort((a, b) => scores[b] - scores[a])` sorts by
DESCENDING score, so after every number of `sendMail` calls — whatever the
elapsed-time decay factors — the try-order is still `[0, 1]` and the
always-failing transport 0 is tried first on the next call: the dispatcher
never converges to trying the healthy transport first. -/
theorem autoMailer_failing_transport_stays_first (fs : Nat → ℚ) (k : Nat) :
    (iterateSendMail fs k).scores = [(k : ℚ), 0] ∧
      (iterateSendMail fs k).orders.getD 0 99 = 0 := by
  rw [iterateSendMail_eq fs k]
  exact ⟨rfl, rfl⟩
